import Mathlib

/-!
Shallow embedding of `src/main.rs` of nsdgen, a tool that packs a directory of
PNG layer images into one binary spatial-data container (`.nsd`).

Modelling conventions:
* bytes are `Nat` values (every value produced is `< 256`);
* Rust `u32` fields are `Nat` with explicit `% 2 ^ 32` truncation where the
  source truncates (`as u32` casts), and `usize` is unbounded `Nat` (the tool
  targets a 64-bit host; no feasible input overflows `usize`);
* panics (`unwrap`, `assert!`, `panic!`, out-of-bounds `get_pixel`) are
  explicit failure values (`Option`/`Except`/a dedicated outcome type);
* the thread pool's nondeterministic completion order is an explicit index
  permutation parameter threaded into the channel-collection model.
-/

namespace NsdGen

/-- `NSD_HEADER` from `main.rs`: the fixed 16-byte container magic. -/
def NSD_HEADER : List Nat :=
  [0x4E, 0x53, 0x47, 0xFF, 0x53, 0x70, 0x61, 0x74, 0x69, 0x61, 0x6C,
   0x00, 0x00, 0x00, 0x00, 0x00]

/-- `NSD_DIM_HEADER` from `main.rs`: the 4-byte dimension-chunk tag. -/
def NSD_DIM_HEADER : List Nat := [0x44, 0x49, 0x4D, 0xFA]

/-- `NSD_ATTR_HEADER` from `main.rs`: the 4-byte attribute-chunk tag. -/
def NSD_ATTR_HEADER : List Nat := [0x41, 0x54, 0x52, 0xFA]

/-- `NSD_DATA_HEADER` from `main.rs`: the 4-byte data-chunk tag. -/
def NSD_DATA_HEADER : List Nat := [0x44, 0x41, 0x54, 0xFA]

/-- `u32::MAX`. -/
def u32_max : Nat := 4294967295

/-- `struct LayerDimensions { width: u32, height: u32 }`. -/
structure LayerDimensions where
  width : Nat
  height : Nat
deriving DecidableEq, Repr

/-- `LayerDimensions::from_power_of_two`: `width = 2^wp`, `height = 2^hp`
(the CLI restricts the exponents to `0..=12`, so `2u32.pow` cannot
overflow). -/
def LayerDimensions.from_power_of_two (width_power_of_two height_power_of_two : Nat) :
    LayerDimensions :=
  ⟨2 ^ width_power_of_two, 2 ^ height_power_of_two⟩

/-- `LayerDimensions::get_texel_count`: `width as usize * height as usize`. -/
def LayerDimensions.get_texel_count (d : LayerDimensions) : Nat :=
  d.width * d.height

/-- An RGBA pixel (`image::Rgba<u8>`); `r` is `rgba.0[0]`. -/
structure Rgba where
  r : Nat
  g : Nat
  b : Nat
  a : Nat

/-- A decoded raster image (`image::DynamicImage`): a width, a height and the
pixel grid, modelled as a total function (only in-bounds coordinates are ever
read through `Image.get_pixel`). -/
structure Image where
  width : Nat
  height : Nat
  pix : Nat → Nat → Rgba

/-- `GenericImageView::get_pixel`, which panics when `(x, y)` is out of
bounds; the panic is modelled as `none`. -/
def Image.get_pixel (im : Image) (x y : Nat) : Option Rgba :=
  if x < im.width ∧ y < im.height then some (im.pix x y) else none

/-- Modelled from the `image` crate (the repository's decoder/resizer
dependency, not part of `src/`): `resize_dimensions` computes the output size
of `DynamicImage::resize`, which preserves the aspect ratio and scales the
image to the maximum size that fits inside the `nwidth × nheight` bounding
box (the `fill = false` branch).  The crate computes the ratios in `f64`;
exact rational arithmetic stands in for `f64` here, and the theorems below
instantiate this definition only at inputs whose `f64` computation is exact
(small powers of two), where the two agree. -/
def resize_dimensions (width height nwidth nheight : Nat) : Nat × Nat :=
  let wratio : ℚ := (nwidth : ℚ) / (width : ℚ)
  let hratio : ℚ := (nheight : ℚ) / (height : ℚ)
  let ratio := min wratio hratio
  let nw := max (round ((width : ℚ) * ratio)).toNat 1
  let nh := max (round ((height : ℚ) * ratio)).toNat 1
  if u32_max < nw then
    let ratio2 : ℚ := (u32_max : ℚ) / (width : ℚ)
    (u32_max, max (round ((height : ℚ) * ratio2)).toNat 1)
  else if u32_max < nh then
    let ratio2 : ℚ := (u32_max : ℚ) / (height : ℚ)
    (max (round ((width : ℚ) * ratio2)).toNat 1, u32_max)
  else (nw, nh)

/-- Modelled from the `image` crate: `DynamicImage::resize` with
`FilterType::Nearest`.  The output dimensions follow `resize_dimensions`; the
nearest-neighbour source coordinate is modelled by integer scaling (the crate
computes sample positions in floating point — no theorem in this file depends
on the sampled pixel values, only on the output dimensions). -/
def DynamicImage.resize (im : Image) (nwidth nheight : Nat) : Image :=
  let wh := resize_dimensions im.width im.height nwidth nheight
  ⟨wh.1, wh.2, fun x y => im.pix (x * im.width / wh.1) (y * im.height / wh.2)⟩

/-- A file path, reduced to what `main.rs` inspects: the result of Rust's
`Path::file_name` — `none` for a root path or a path whose last component is
`..`, otherwise the final component as a list of characters
(`to_string_lossy` is the identity on these, names being modelled as valid
Unicode). -/
structure Path where
  fileName : Option (List Char)
deriving DecidableEq, Repr

/-- Split a file name around its last `.`: `some (before, after)` when a dot
occurs, `none` otherwise. -/
def splitAtLastDot : List Char → Option (List Char × List Char)
  | [] => none
  | c :: cs =>
    match splitAtLastDot cs with
    | some ba => some (c :: ba.1, ba.2)
    | none => if c = '.' then some ([], cs) else none

/-- Modelled from Rust `std::path` (`rsplit_file_at_dot`, the helper behind
`Path::file_stem` and `Path::extension`): returns the name split around its
last dot, treating a leading-dot-only name (and the literal `..`) as having
no extension. -/
def rsplitFileAtDot (name : List Char) : Option (List Char) × Option (List Char) :=
  if name = ['.', '.'] then (some name, none)
  else
    match splitAtLastDot name with
    | none => (none, some name)
    | some ba => if ba.1 = [] then (some name, none) else (some ba.1, some ba.2)

/-- Rust `Path::file_stem`: `before.or(after)` of the last-dot split of the
file name. -/
def Path.file_stem (p : Path) : Option (List Char) :=
  p.fileName.bind fun n => ((rsplitFileAtDot n).1).or (rsplitFileAtDot n).2

/-- Rust `Path::extension`: `before.and(after)` of the last-dot split of the
file name. -/
def Path.extension (p : Path) : Option (List Char) :=
  p.fileName.bind fun n =>
    match rsplitFileAtDot n with
    | (some _, a) => a
    | (none, _) => none

/-- The `OsStr` literal `"png"` the extension filter compares against. -/
def pngExt : List Char := ['p', 'n', 'g']

/-- Model of `read_layer_files`: directory entries arrive in `read_dir`
enumeration order (entries whose read errored have already been dropped by
the `filter_map`); an entry is kept exactly when
`path.extension().unwrap_or("").eq("png")` — byte equality against the exact
lowercase `"png"` — and the surviving entries are collected without any
sorting. -/
def read_layer_files (entries : List Path) : List Path :=
  entries.filter fun p => decide (p.extension.getD [] = pngExt)

/-- `struct Layer { name: String, image: DynamicImage }`. -/
structure Layer where
  name : List Char
  image : Image

/-- Outcome of `Layer::from_file`: `panicked` embeds the `unwrap()` panic on
a path without a file stem; `ok l saved` is a successfully built layer
together with whether the resized-copy save side effect was attempted (the
`if save_resized` branch; a failing save only logs and does not abort). -/
inductive LoadOutcome where
  | panicked : LoadOutcome
  | ok : Layer → Bool → LoadOutcome

/-- Model of `Layer::from_file`.  The decoded image `img` is supplied by the
environment: the open/guess-format/decode chain also `unwrap()`-panics on
failure, but none of the claims concern decode failures, so a successfully
decoded image is assumed.  The layer name is the path's file stem
(`file.file_stem().unwrap()`, a panic when the stem is missing), and the
image is the decoded image resized to the target dimensions with
`FilterType::Nearest`. -/
def Layer.from_file (file : Path) (img : Image) (dimensions : LayerDimensions)
    (save_resized : Bool) : LoadOutcome :=
  match Path.file_stem file with
  | none => .panicked
  | some layer_name =>
    .ok ⟨layer_name, DynamicImage.resize img dimensions.width dimensions.height⟩ save_resized

/-- Model of `init_layers_parallel`.  One pool task per input file sends its
`Layer::from_file` result over an mpsc channel and the main thread collects
the first `jobs` arrivals: the collected list is in channel-arrival order,
which is the scheduler's choice, modelled by the index list `order` (a
permutation of the task indices).  Pool sizing
(`min(jobs, available_parallelism)`) does not affect the collected value.  A
task that panics never sends, so the collection never completes; that stuck
state is modelled as `none`. -/
def init_layers_parallel (layer_files : List (Path × Image))
    (dimensions : LayerDimensions) (save_resized : Bool) (order : List Nat) :
    Option (List (Layer × Bool)) :=
  (order.mapM fun i => layer_files[i]?).bind fun dispatched =>
    dispatched.mapM fun fi =>
      match Layer.from_file fi.1 fi.2 dimensions save_resized with
      | .ok l saved => some (l, saved)
      | .panicked => none

/-- Model of `init_layers`: asserts the file list nonempty (`none` embeds the
`assert!` panic); when `save_resized` is set, attempts to create the
`_resized` directory once before dispatch — `create_dir_ok` is the
environment's answer to `fs::create_dir` — downgrading the flag to `false`
for the whole batch on failure; then dispatches to
`init_layers_parallel`. -/
def init_layers (layer_files : List (Path × Image)) (dimensions : LayerDimensions)
    (save_resized : Bool) (create_dir_ok : Bool) (order : List Nat) :
    Option (List (Layer × Bool)) :=
  if layer_files.isEmpty then none
  else
    let save_resized :=
      if save_resized then (if create_dir_ok then save_resized else false) else save_resized
    init_layers_parallel layer_files dimensions save_resized order

/-- `u32::to_le_bytes`. -/
def u32_to_le_bytes (n : Nat) : List Nat :=
  [n % 256, n / 256 % 256, n / 65536 % 256, n / 16777216 % 256]

/-- UTF-8 encoding of one character (Rust `String` bytes). -/
def utf8EncodeChar (c : Char) : List Nat :=
  let n := c.toNat
  if n < 128 then [n]
  else if n < 2048 then [192 + n / 64, 128 + n % 64]
  else if n < 65536 then [224 + n / 4096, 128 + n / 64 % 64, 128 + n % 64]
  else [240 + n / 262144, 128 + n / 4096 % 64, 128 + n / 64 % 64, 128 + n % 64]

/-- UTF-8 bytes of a name (`extend_from_slice(layer.name.as_ref())`). -/
def utf8Encode (s : List Char) : List Nat :=
  s.flatMap utf8EncodeChar

/-- Model of `make_attribute_bytes`: the loop extends an accumulator vector
with, per layer, the attribute tag, the name's UTF-8 bytes, a NUL
terminator, the attribute size byte `1` and the attribute type byte `3`
(`ESpatialDataTexelAttributeType::Byte`). -/
def make_attribute_bytes (layers : List Layer) : List Nat :=
  layers.foldl
    (fun attribute_bytes layer =>
      attribute_bytes ++ NSD_ATTR_HEADER ++ utf8Encode layer.name ++ [0, 1, 3])
    []

/-- Model of `make_dimensions_bytes`: dimension tag, then little-endian
`width`, `height`, `1` (depth) and `1` (fourth extent). -/
def make_dimensions_bytes (dimensions : LayerDimensions) : List Nat :=
  NSD_DIM_HEADER ++ u32_to_le_bytes dimensions.width ++ u32_to_le_bytes dimensions.height
    ++ u32_to_le_bytes 1 ++ u32_to_le_bytes 1

/-- The two panics `make_data_bytes` can hit: the explicit
`panic!("For now, data chunks larger than u32::MAX are unsupported")` guard,
and the `image` crate's out-of-bounds panic inside `get_pixel`. -/
inductive DataError where
  | sizeOverflow : DataError
  | pixelOutOfBounds : DataError
deriving DecidableEq, Repr

/-- Model of `make_data_bytes`: data tag; `combined_size = layers.len() *
width * height` (a `usize` product), rejected when above `u32::MAX`,
otherwise emitted as a little-endian `u32`; then, per texel index `i` in
row-major order and per layer in list order, the red channel of
`get_pixel(i as u32 % width, i as u32 / width)` (the `as u32` cast is the
`% 2 ^ 32` truncation). -/
def make_data_bytes (layers : List Layer) (dimensions : LayerDimensions) :
    Except DataError (List Nat) :=
  let combined_size := layers.length * dimensions.width * dimensions.height
  if u32_max < combined_size then .error .sizeOverflow
  else
    let texel_rows : Except DataError (List (List Nat)) :=
      (List.range dimensions.get_texel_count).mapM fun i =>
        layers.mapM fun (layer : Layer) =>
          match layer.image.get_pixel (i % 2 ^ 32 % dimensions.width)
              (i % 2 ^ 32 / dimensions.width) with
          | some rgba => Except.ok rgba.r
          | none => Except.error DataError.pixelOutOfBounds
    texel_rows.map fun rows => NSD_DATA_HEADER ++ u32_to_le_bytes combined_size ++ rows.flatten

/-- Model of `make_binary`: header magic, dimension chunk, attribute chunks,
data chunk, concatenated in that order (a panic inside `make_data_bytes`
aborts the whole serialization). -/
def make_binary (layers : List Layer) (dimensions : LayerDimensions) :
    Except DataError (List Nat) :=
  (make_data_bytes layers dimensions).map fun data_bytes =>
    NSD_HEADER ++ make_dimensions_bytes dimensions ++ make_attribute_bytes layers ++ data_bytes

/-- The attribute chunk of one layer as §4.4 of the specification describes
it: 4-byte tag, UTF-8 name bytes, one NUL terminator, one size byte `1`, one
type byte `3`. -/
def attributeChunkSpec (layer : Layer) : List Nat :=
  NSD_ATTR_HEADER ++ utf8Encode layer.name ++ [0] ++ [1] ++ [3]

/-- The data-chunk payload as the specification describes it: for each texel
index `i` of the row-major grid, one red-channel byte per layer in list
order. -/
def dataPayload (layers : List Layer) (dimensions : LayerDimensions) : List Nat :=
  (List.range (dimensions.width * dimensions.height)).flatMap fun i =>
    layers.map fun l => (l.image.pix (i % dimensions.width) (i / dimensions.width)).r

/-- A solid-colour test image. -/
def constImage (w h v : Nat) : Image :=
  ⟨w, h, fun _ _ => ⟨v, v, v, v⟩⟩

/-- A 1×1 solid-white test image. -/
def img1 : Image := constImage 1 1 255

/-- The path `a.png`. -/
def pathAPng : Path := ⟨some ['a', '.', 'p', 'n', 'g']⟩

/-- The path `b.png`. -/
def pathBPng : Path := ⟨some ['b', '.', 'p', 'n', 'g']⟩

/-- A 1×1 test image distinct from `imgB`. -/
def imgA : Image := constImage 1 1 10

/-- A 1×1 test image distinct from `imgA`. -/
def imgB : Image := constImage 1 1 20

/-- The layer `Layer::from_file` builds for `a.png` (decoded to `img1`) at
target dimensions 2×1. -/
def layerA21 : Layer := ⟨['a'], DynamicImage.resize img1 2 1⟩

/-- A layer whose 3×3 image strictly exceeds a 2×2 target grid. -/
def layerX : Layer := ⟨['x'], constImage 3 3 7⟩

/-- A layer with a 1×1 image. -/
def layerO : Layer := ⟨['o'], constImage 1 1 42⟩

theorem make_attribute_bytes_foldl :
    ∀ (layers : List Layer) (acc : List Nat),
      layers.foldl
        (fun attribute_bytes layer =>
          attribute_bytes ++ NSD_ATTR_HEADER ++ utf8Encode layer.name ++ [0, 1, 3]) acc =
        acc ++ (layers.map attributeChunkSpec).flatten
  | [], acc => by simp
  | layer :: layers, acc => by
    rw [List.foldl_cons, make_attribute_bytes_foldl layers]
    simp [attributeChunkSpec, List.append_assoc]

theorem mapM_except_ok {ε α β : Type} (g : α → Except ε β) (f : α → β) :
    ∀ l : List α, (∀ a ∈ l, g a = Except.ok (f a)) → l.mapM g = Except.ok (l.map f)
  | [], _ => rfl
  | a :: l, h => by
    have ha := h a (List.mem_cons_self a l)
    have ht := mapM_except_ok g f l fun x hx => h x (List.mem_cons_of_mem a hx)
    rw [List.mapM_cons, ha, ht]
    rfl

theorem mapM_option_of_isSome {α β : Type} (g : α → Option β) :
    ∀ l : List α, (∀ a ∈ l, (g a).isSome) →
      ∃ bs, l.mapM g = some bs ∧ bs.length = l.length ∧
        ∀ b ∈ bs, ∃ a, a ∈ l ∧ g a = some b
  | [], _ => ⟨[], rfl, rfl, by simp⟩
  | a :: l, h => by
    obtain ⟨b, hb⟩ := Option.isSome_iff_exists.mp (h a (List.mem_cons_self a l))
    obtain ⟨bs, hbs, hlen, hmem⟩ :=
      mapM_option_of_isSome g l fun x hx => h x (List.mem_cons_of_mem a hx)
    refine ⟨b :: bs, by rw [List.mapM_cons, hb, hbs]; rfl, by simp [hlen], ?_⟩
    intro x hx
    rcases List.mem_cons.mp hx with h1 | h2
    · exact ⟨a, List.mem_cons_self a l, h1 ▸ hb⟩
    · obtain ⟨a2, ha2, hga⟩ := hmem x h2
      exact ⟨a2, List.mem_cons_of_mem a ha2, hga⟩

theorem length_flatMap_const {α : Type} (f : Nat → List α) (N : Nat)
    (hf : ∀ j, (f j).length = N) :
    ∀ l : List Nat, (l.flatMap f).length = l.length * N
  | [] => by simp
  | a :: l => by
    simp only [List.flatMap_cons, List.length_append, length_flatMap_const f N hf l,
      hf a, List.length_cons]
    ring

theorem getElem?_flatMap_range {α : Type} (f : Nat → List α) (N : Nat)
    (hf : ∀ j, (f j).length = N) :
    ∀ (m i k : Nat), i < m → k < N →
      ((List.range m).flatMap f)[i * N + k]? = (f i)[k]?
  | 0, i, _, hi, _ => absurd hi (Nat.not_lt_zero i)
  | m + 1, i, k, hi, hk => by
    rw [List.range_succ, List.flatMap_append]
    have hlen : ((List.range m).flatMap f).length = m * N := by
      rw [length_flatMap_const f N hf, List.length_range]
    rcases Nat.lt_or_ge i m with h | h
    · have hidx : i * N + k < m * N :=
        calc i * N + k < i * N + N := by omega
        _ = (i + 1) * N := by ring
        _ ≤ m * N := Nat.mul_le_mul_right N h
      rw [List.getElem?_append_left (by rw [hlen]; exact hidx)]
      exact getElem?_flatMap_range f N hf m i k h hk
    · have him : i = m := by omega
      subst him
      rw [List.getElem?_append_right (by rw [hlen]; exact Nat.le_add_right _ _), hlen]
      have hix : i * N + k - i * N = k := by omega
      simp only [List.flatMap_cons, List.flatMap_nil, List.append_nil, hix]

/-- Under the `u32` size guard and with every layer image covering the target
grid, the texel loop of `make_data_bytes` never hits an out-of-bounds pixel
access: the chunk is the data tag, the little-endian combined size, and one
red-channel byte per (texel, layer) pair. -/
theorem make_data_bytes_ok (layers : List Layer) (dimensions : LayerDimensions)
    (hsz : ¬ u32_max < layers.length * dimensions.width * dimensions.height)
    (hdim : ∀ l ∈ layers, dimensions.width ≤ l.image.width ∧
      dimensions.height ≤ l.image.height) :
    make_data_bytes layers dimensions =
      Except.ok (NSD_DATA_HEADER ++
        u32_to_le_bytes (layers.length * dimensions.width * dimensions.height) ++
        ((List.range (dimensions.width * dimensions.height)).map fun i =>
          layers.map fun l =>
            (l.image.pix (i % 2 ^ 32 % dimensions.width)
              (i % 2 ^ 32 / dimensions.width)).r).flatten) := by
  have houter :
      (List.range dimensions.get_texel_count).mapM (fun i =>
        layers.mapM fun (layer : Layer) =>
          match layer.image.get_pixel (i % 2 ^ 32 % dimensions.width)
              (i % 2 ^ 32 / dimensions.width) with
          | some rgba => Except.ok rgba.r
          | none => Except.error DataError.pixelOutOfBounds) =
      Except.ok ((List.range (dimensions.width * dimensions.height)).map fun i =>
        layers.map fun l =>
          (l.image.pix (i % 2 ^ 32 % dimensions.width)
            (i % 2 ^ 32 / dimensions.width)).r) := by
    rw [LayerDimensions.get_texel_count]
    apply mapM_except_ok
    intro i hi
    apply mapM_except_ok
    intro l hl
    have hiwh : i < dimensions.width * dimensions.height := List.mem_range.mp hi
    have hwpos : 0 < dimensions.width := by
      rcases Nat.eq_zero_or_pos dimensions.width with h0 | h
      · rw [h0] at hiwh; omega
      · exact h
    have hx : i % 2 ^ 32 % dimensions.width < l.image.width :=
      lt_of_lt_of_le (Nat.mod_lt _ hwpos) (hdim l hl).1
    have hy : i % 2 ^ 32 / dimensions.width < l.image.height := by
      have h1 : i % 2 ^ 32 / dimensions.width ≤ i / dimensions.width :=
        Nat.div_le_div_right (Nat.mod_le i _)
      have h2 : i / dimensions.width < dimensions.height :=
        (Nat.div_lt_iff_lt_mul hwpos).mpr (by rw [Nat.mul_comm]; exact hiwh)
      exact lt_of_le_of_lt h1 (lt_of_lt_of_le h2 (hdim l hl).2)
    rw [show l.image.get_pixel (i % 2 ^ 32 % dimensions.width)
        (i % 2 ^ 32 / dimensions.width) = some (l.image.pix (i % 2 ^ 32 % dimensions.width)
        (i % 2 ^ 32 / dimensions.width)) from by rw [Image.get_pixel, if_pos ⟨hx, hy⟩]]
  simp only [make_data_bytes, if_neg hsz, houter]
  rfl

/-- A path with a stem makes `Layer::from_file` succeed, naming the layer
after the stem and resizing the decoded image to the target dimensions. -/
theorem from_file_of_stem (file : Path) (img : Image) (dimensions : LayerDimensions)
    (save_resized : Bool) (s : List Char) (hs : Path.file_stem file = some s) :
    Layer.from_file file img dimensions save_resized =
      LoadOutcome.ok ⟨s, DynamicImage.resize img dimensions.width dimensions.height⟩
        save_resized := by
  rw [Layer.from_file, hs]

/-- A successful `Layer::from_file` attempted the resized-copy save exactly
when its `save_resized` argument was set. -/
theorem from_file_saved (file : Path) (img : Image) (dimensions : LayerDimensions)
    (save_resized : Bool) (l : Layer) (sv : Bool)
    (h : Layer.from_file file img dimensions save_resized = LoadOutcome.ok l sv) :
    sv = save_resized := by
  rw [Layer.from_file] at h
  cases hs : Path.file_stem file
  · rw [hs] at h
    cases h
  · rw [hs] at h
    injection h with h1 h2
    exact h2.symm

/-- **C5.** For every list of `N` layers, `make_attribute_bytes` emits
exactly `N` attribute chunks concatenated in layer-list order, the chunk of
each layer being the 4-byte attribute tag, the UTF-8 bytes of the layer's
name, one NUL terminator byte, one size byte equal to `1` and one type byte
equal to `3`. -/
theorem claim5_attribute_chunks :
    ∀ layers : List Layer,
      make_attribute_bytes layers = (layers.map attributeChunkSpec).flatten ∧
      (layers.map attributeChunkSpec).length = layers.length ∧
      ∀ layer : Layer,
        attributeChunkSpec layer =
          NSD_ATTR_HEADER ++ utf8Encode layer.name ++ [0] ++ [1] ++ [3] := by
  intro layers
  refine ⟨?_, by simp, fun _ => rfl⟩
  rw [make_attribute_bytes, make_attribute_bytes_foldl]
  simp

/-- **C6.** Whenever the data chunk serializes (no size-overflow panic),
`make_binary` returns exactly the concatenation of the fixed 16-byte header
magic, the 20-byte dimension chunk (4-byte tag plus little-endian `u32`
width, height, depth `1` and fourth extent `1`), the attribute chunks for
all layers in order, and the data chunk. -/
theorem claim6_container_layout (layers : List Layer) (dimensions : LayerDimensions)
    (d : List Nat) (h : make_data_bytes layers dimensions = Except.ok d) :
    make_binary layers dimensions =
      Except.ok (NSD_HEADER ++ make_dimensions_bytes dimensions ++
        make_attribute_bytes layers ++ d) ∧
    make_dimensions_bytes dimensions =
      NSD_DIM_HEADER ++ u32_to_le_bytes dimensions.width ++
        u32_to_le_bytes dimensions.height ++ u32_to_le_bytes 1 ++ u32_to_le_bytes 1 ∧
    NSD_HEADER.length = 16 ∧ (make_dimensions_bytes dimensions).length = 20 := by
  refine ⟨?_, rfl, rfl, rfl⟩
  rw [make_binary, h]
  rfl

/-- Witness for the container-layout theorem at a concrete input (no layers,
a 1×1 grid). -/
theorem claim6_container_layout_witness :
    make_binary [] ⟨1, 1⟩ =
      Except.ok (NSD_HEADER ++ make_dimensions_bytes ⟨1, 1⟩ ++ make_attribute_bytes [] ++
        (NSD_DATA_HEADER ++ u32_to_le_bytes 0 ++ [])) ∧
    NSD_HEADER.length = 16 ∧ (make_dimensions_bytes ⟨1, 1⟩).length = 20 :=
  ⟨(claim6_container_layout [] ⟨1, 1⟩ (NSD_DATA_HEADER ++ u32_to_le_bytes 0 ++ []) rfl).1,
   (claim6_container_layout [] ⟨1, 1⟩ (NSD_DATA_HEADER ++ u32_to_le_bytes 0 ++ []) rfl).2.2.1,
   (claim6_container_layout [] ⟨1, 1⟩ (NSD_DATA_HEADER ++ u32_to_le_bytes 0 ++ []) rfl).2.2.2⟩

/-- **C9.** `read_layer_files` keeps exactly the directory entries whose
extension is the exact lowercase `"png"` — no extension, a different
extension and the upper-case `"PNG"` are all excluded — and applies no
sorting: the kept entries stay in enumeration order (concretely, `b.png`
stays before `a.png` while `a.PNG`, `a` and `a.jpg` are dropped). -/
theorem claim9_png_filter :
    (∀ entries : List Path,
      read_layer_files entries =
        entries.filter fun p => decide (Path.extension p = some pngExt)) ∧
    read_layer_files
        [⟨some ['b', '.', 'p', 'n', 'g']⟩, ⟨some ['a', '.', 'P', 'N', 'G']⟩, ⟨some ['a']⟩,
         ⟨some ['a', '.', 'j', 'p', 'g']⟩, ⟨some ['a', '.', 'p', 'n', 'g']⟩] =
      [⟨some ['b', '.', 'p', 'n', 'g']⟩, ⟨some ['a', '.', 'p', 'n', 'g']⟩] := by
  constructor
  · intro entries
    rw [read_layer_files]
    apply List.filter_congr
    intro p _
    rw [decide_eq_decide]
    cases hext : Path.extension p with
    | none => simp [pngExt]
    | some e => simp
  · decide

/-- **C1 counter-evidence (code bug).** With two layer files `a.png` and
`b.png`, if the worker task for `b.png` completes first (arrival order
`[1, 0]`), the channel collection of `init_layers_parallel` returns the
layer named `b` at index 0 and the layer named `a` at index 1 — the layer at
index `k` does not come from the path at index `k`. -/
theorem claim1_completion_order :
    (init_layers_parallel [(pathAPng, imgA), (pathBPng, imgB)] ⟨1, 1⟩ false
        [1, 0]).map (fun ls => ls.map fun lw => lw.1.name) = some [['b'], ['a']] ∧
    Path.file_stem pathAPng = some ['a'] ∧ (['b'] : List Char) ≠ ['a'] :=
  ⟨rfl, rfl, by decide⟩

/-- **C8 as stated is false.** Loading a path with no file stem does not
produce a reported `NamingError` value: `file.file_stem().unwrap()` panics,
modelled by the `panicked` outcome (the run aborts uncontrolledly; the code
has no error channel at all). -/
theorem claim8_no_stem_panic_cex :
    Layer.from_file ⟨none⟩ img1 ⟨1, 1⟩ false = LoadOutcome.panicked := rfl

/-- **C8 amended.** For every path with no file stem, `Layer::from_file`
panics (the `unwrap()` on the missing stem aborts the run — an uncontrolled
panic, not a reported error value); for every path with a stem, the produced
layer's name equals that stem. -/
theorem claim8_stem_naming (file : Path) (img : Image) (dimensions : LayerDimensions)
    (save_resized : Bool) :
    (Path.file_stem file = none →
      Layer.from_file file img dimensions save_resized = LoadOutcome.panicked) ∧
    ∀ s, Path.file_stem file = some s →
      Layer.from_file file img dimensions save_resized =
        LoadOutcome.ok ⟨s, DynamicImage.resize img dimensions.width dimensions.height⟩
          save_resized := by
  constructor
  · intro h
    rw [Layer.from_file, h]
  · intro s h
    exact from_file_of_stem file img dimensions save_resized s h

/-- Witness for the amended stem-naming theorem: a stem-less path panics and
`a.png` yields a layer named `a`. -/
theorem claim8_stem_naming_witness :
    Layer.from_file ⟨none⟩ imgA ⟨1, 1⟩ false = LoadOutcome.panicked ∧
    Layer.from_file pathAPng imgA ⟨1, 1⟩ false =
      LoadOutcome.ok ⟨['a'], DynamicImage.resize imgA 1 1⟩ false :=
  ⟨(claim8_stem_naming ⟨none⟩ imgA ⟨1, 1⟩ false).1 rfl,
   (claim8_stem_naming pathAPng imgA ⟨1, 1⟩ false).2 ['a'] rfl⟩

/-- **C3.** For a non-empty list of `N` layers whose images cover the target
grid and a combined size within `u32`, the data chunk is the 4-byte data
tag, then `N*W*H` as a little-endian `u32`, then a payload of exactly
`N*W*H` bytes in which the byte at position `i*N + k` is the red channel of
layer `k`'s image at pixel `(i mod W, i div W)`. -/
theorem claim3_data_chunk_layout (layers : List Layer) (dimensions : LayerDimensions)
    (hne : layers ≠ [])
    (hsz : layers.length * dimensions.width * dimensions.height ≤ u32_max)
    (hdim : ∀ l ∈ layers, dimensions.width ≤ l.image.width ∧
      dimensions.height ≤ l.image.height) :
    make_data_bytes layers dimensions =
      Except.ok (NSD_DATA_HEADER ++
        u32_to_le_bytes (layers.length * dimensions.width * dimensions.height) ++
        dataPayload layers dimensions) ∧
    (dataPayload layers dimensions).length =
      layers.length * dimensions.width * dimensions.height ∧
    ∀ i k, i < dimensions.width * dimensions.height → k < layers.length →
      (dataPayload layers dimensions)[i * layers.length + k]? =
        layers[k]?.map fun l =>
          (l.image.pix (i % dimensions.width) (i / dimensions.width)).r := by
  have hN : 0 < layers.length := List.length_pos.mpr hne
  have hWH : dimensions.width * dimensions.height ≤ u32_max := by
    calc dimensions.width * dimensions.height
        ≤ layers.length * (dimensions.width * dimensions.height) :=
          Nat.le_mul_of_pos_left _ hN
    _ = layers.length * dimensions.width * dimensions.height := (Nat.mul_assoc ..).symm
    _ ≤ u32_max := hsz
  have hmod : ∀ i ∈ List.range (dimensions.width * dimensions.height),
      i % 2 ^ 32 = i := by
    intro i hi
    have hi2 := List.mem_range.mp hi
    have : u32_max < 2 ^ 32 := by rw [u32_max]; norm_num
    exact Nat.mod_eq_of_lt (by omega)
  have hpayload :
      ((List.range (dimensions.width * dimensions.height)).map fun i =>
        layers.map fun l => (l.image.pix (i % 2 ^ 32 % dimensions.width)
          (i % 2 ^ 32 / dimensions.width)).r).flatten = dataPayload layers dimensions := by
    rw [dataPayload, List.flatMap]
    congr 1
    apply List.map_congr_left
    intro i hi
    rw [hmod i hi]
  have hlenf : ∀ j, ((fun i => layers.map fun l =>
      (l.image.pix (i % dimensions.width) (i / dimensions.width)).r) j).length =
      layers.length := fun j => by simp
  refine ⟨?_, ?_, ?_⟩
  · rw [make_data_bytes_ok layers dimensions (not_lt.mpr hsz) hdim, hpayload]
  · rw [dataPayload, length_flatMap_const _ layers.length hlenf, List.length_range]
    ring
  · intro i k hi hk
    rw [dataPayload, getElem?_flatMap_range _ layers.length hlenf _ i k hi hk,
      List.getElem?_map]

/-- Witness for the data-chunk-layout theorem: one 1×1 layer on a 1×1
grid. -/
theorem claim3_data_chunk_layout_witness :
    make_data_bytes [layerO] ⟨1, 1⟩ =
      Except.ok (NSD_DATA_HEADER ++ u32_to_le_bytes ([layerO].length * 1 * 1) ++
        dataPayload [layerO] ⟨1, 1⟩) ∧
    (dataPayload [layerO] ⟨1, 1⟩).length = [layerO].length * 1 * 1 ∧
    ∀ i k, i < 1 * 1 → k < [layerO].length →
      (dataPayload [layerO] ⟨1, 1⟩)[i * [layerO].length + k]? =
        [layerO][k]?.map fun l => (l.image.pix (i % 1) (i / 1)).r :=
  claim3_data_chunk_layout [layerO] ⟨1, 1⟩ (List.cons_ne_nil _ _) (by decide)
    (by
      intro l hl
      rw [List.mem_singleton] at hl
      subst hl
      exact ⟨Nat.le_refl 1, Nat.le_refl 1⟩)

/-- **C4.** If `layers.len() * width * height` exceeds `u32::MAX`, the data
chunk (and with it the whole container) fails with the size-overflow panic
before any bytes exist to write, and the 32-bit combined-size field is never
wrapped or truncated; at or below `u32::MAX` (and with images covering the
grid) serialization succeeds with the exact combined size in the length
field. -/
theorem claim4_size_overflow (layers : List Layer) (dimensions : LayerDimensions) :
    (u32_max < layers.length * dimensions.width * dimensions.height →
      make_data_bytes layers dimensions = Except.error DataError.sizeOverflow ∧
      make_binary layers dimensions = Except.error DataError.sizeOverflow) ∧
    (layers.length * dimensions.width * dimensions.height ≤ u32_max →
      (∀ l ∈ layers, dimensions.width ≤ l.image.width ∧
        dimensions.height ≤ l.image.height) →
      ∃ payload, make_data_bytes layers dimensions =
        Except.ok (NSD_DATA_HEADER ++
          u32_to_le_bytes (layers.length * dimensions.width * dimensions.height) ++
          payload)) := by
  constructor
  · intro hgt
    have hd : make_data_bytes layers dimensions = Except.error DataError.sizeOverflow := by
      simp only [make_data_bytes]
      rw [if_pos hgt]
    refine ⟨hd, ?_⟩
    rw [make_binary, hd]
    rfl
  · intro hle hdim
    exact ⟨_, make_data_bytes_ok layers dimensions (not_lt.mpr hle) hdim⟩

/-- Witness for the size-overflow theorem: one layer on a 65536×65536 grid
overflows (`1 * 2^16 * 2^16 = 2^32 > u32::MAX`); no layer on a 1×1 grid
succeeds. -/
theorem claim4_size_overflow_witness :
    (u32_max < [layerX].length * 65536 * 65536 ∧
      make_data_bytes [layerX] ⟨65536, 65536⟩ = Except.error DataError.sizeOverflow ∧
      make_binary [layerX] ⟨65536, 65536⟩ = Except.error DataError.sizeOverflow) ∧
    ∃ payload, make_data_bytes [] ⟨1, 1⟩ =
      Except.ok (NSD_DATA_HEADER ++
        u32_to_le_bytes (([] : List Layer).length * 1 * 1) ++ payload) :=
  ⟨⟨by decide,
    ((claim4_size_overflow [layerX] ⟨65536, 65536⟩).1 (by decide)).1,
    ((claim4_size_overflow [layerX] ⟨65536, 65536⟩).1 (by decide)).2⟩,
   (claim4_size_overflow [] ⟨1, 1⟩).2 (by decide) (by simp)⟩

/-- **C10.** If every layer image is at least `width` wide and `height`
tall, no pixel access of `make_data_bytes` is out of bounds (the
out-of-bounds panic branch is unreachable); and `make_data_bytes` performs
no check that layer images match the target dimensions — a layer with a 3×3
image serializes on a 2×2 grid without complaint. -/
theorem claim10_pixel_access_in_bounds :
    (∀ (layers : List Layer) (dimensions : LayerDimensions),
      (∀ l ∈ layers, dimensions.width ≤ l.image.width ∧
        dimensions.height ≤ l.image.height) →
      make_data_bytes layers dimensions ≠ Except.error DataError.pixelOutOfBounds) ∧
    make_data_bytes [layerX] ⟨2, 2⟩ =
      Except.ok (NSD_DATA_HEADER ++ u32_to_le_bytes 4 ++ [7, 7, 7, 7]) := by
  constructor
  · intro layers dimensions hdim
    rcases Nat.lt_or_ge u32_max
        (layers.length * dimensions.width * dimensions.height) with hgt | hle
    · have hd : make_data_bytes layers dimensions = Except.error DataError.sizeOverflow := by
        simp only [make_data_bytes]
        rw [if_pos hgt]
      rw [hd]
      simp
    · rw [make_data_bytes_ok layers dimensions (not_lt.mpr hle) hdim]
      simp
  · rfl

/-- Witness for the in-bounds theorem: the 3×3 layer on the 2×2 grid
satisfies the covering precondition, and its serialization indeed avoids the
out-of-bounds panic. -/
theorem claim10_pixel_access_in_bounds_witness :
    make_data_bytes [layerX] ⟨2, 2⟩ ≠ Except.error DataError.pixelOutOfBounds :=
  claim10_pixel_access_in_bounds.1 [layerX] ⟨2, 2⟩
    (by
      intro l hl
      rw [List.mem_singleton] at hl
      subst hl
      exact ⟨by decide, by decide⟩)

/-- Sizing a 1×1 source for a 2×1 bounding box keeps the source's 1:1
aspect ratio: the result is 1×1, not the requested 2×1 (all quantities are
exactly representable in `f64`, so the rational model agrees with the
crate). -/
theorem resize_dimensions_one_one_two_one : resize_dimensions 1 1 2 1 = (1, 1) := by
  unfold resize_dimensions
  norm_num [u32_max]

/-- Resizing the 1×1 image `img1` into a 2×1 box returns a 1×1 image. -/
theorem resize_img1_two_one : DynamicImage.resize img1 2 1 = constImage 1 1 255 := by
  have h : resize_dimensions img1.width img1.height 2 1 = (1, 1) :=
    resize_dimensions_one_one_two_one
  simp only [DynamicImage.resize, h]
  rfl

/-- **C2 counter-evidence (code bug).** Loading a 1×1 source image at target
dimensions 2×1 (`wpower = 1`, `hpower = 0`): `DynamicImage::resize`
preserves the aspect ratio, so the stored layer image is 1×1, not the
claimed 2×1 — and the downstream `make_data_bytes` then panics with an
out-of-bounds pixel access on that very layer. -/
theorem claim2_resize_not_exact :
    LayerDimensions.from_power_of_two 1 0 = ⟨2, 1⟩ ∧
    resize_dimensions 1 1 2 1 = (1, 1) ∧
    ((1, 1) : Nat × Nat) ≠ (2, 1) ∧
    Layer.from_file pathAPng img1 ⟨2, 1⟩ false = LoadOutcome.ok layerA21 false ∧
    layerA21.image.width = 1 ∧ layerA21.image.height = 1 ∧
    make_data_bytes [layerA21] ⟨2, 1⟩ = Except.error DataError.pixelOutOfBounds := by
  have hl : layerA21 = ⟨['a'], constImage 1 1 255⟩ := by
    rw [layerA21, resize_img1_two_one]
  refine ⟨rfl, resize_dimensions_one_one_two_one, by decide, rfl, ?_, ?_, ?_⟩
  · rw [hl]
    rfl
  · rw [hl]
    rfl
  · rw [hl]
    rfl

/-- **C7.** When `save_resized` is requested but creating the `_resized`
directory fails, ingestion does not abort: the flag is downgraded to `false`
for the whole batch before any task is dispatched, so `init_layers` behaves
exactly like a dispatch with the flag off, no task attempts a resized-copy
save, and (whenever every path has a stem and the arrival order is a valid
collection of the task indices) one layer per input path is still
produced. -/
theorem claim7_dir_create_failure (layer_files : List (Path × Image))
    (dimensions : LayerDimensions) (order : List Nat)
    (hne : layer_files ≠ [])
    (hord : ∀ i ∈ order, i < layer_files.length)
    (hlen : order.length = layer_files.length)
    (hstem : ∀ f ∈ layer_files, (Path.file_stem f.1).isSome) :
    init_layers layer_files dimensions true false order =
      init_layers_parallel layer_files dimensions false order ∧
    ∃ ls, init_layers layer_files dimensions true false order = some ls ∧
      ls.length = layer_files.length ∧ ∀ lw ∈ ls, lw.2 = false := by
  have hflag : init_layers layer_files dimensions true false order =
      init_layers_parallel layer_files dimensions false order := by
    rw [init_layers, if_neg (by simp [hne])]
    rfl
  refine ⟨hflag, ?_⟩
  rw [hflag, init_layers_parallel]
  obtain ⟨dispatched, hdisp, hdlen, hdmem⟩ :=
    mapM_option_of_isSome (fun i => layer_files[i]?) order
      (fun i hi => by simp [hord i hi])
  rw [hdisp]
  have hconv : ∀ fi ∈ dispatched,
      ((fun (fi : Path × Image) =>
        match Layer.from_file fi.1 fi.2 dimensions false with
        | .ok l saved => some (l, saved)
        | .panicked => none) fi).isSome := by
    intro fi hfi
    obtain ⟨i, _, hgi⟩ := hdmem fi hfi
    have hmem : fi ∈ layer_files := List.getElem?_mem hgi
    obtain ⟨s, hs⟩ := Option.isSome_iff_exists.mp (hstem fi hmem)
    simp only [from_file_of_stem fi.1 fi.2 dimensions false s hs]
    rfl
  obtain ⟨ls, hls, hlslen, hlsmem⟩ :=
    mapM_option_of_isSome
      (fun (fi : Path × Image) =>
        match Layer.from_file fi.1 fi.2 dimensions false with
        | .ok l saved => some (l, saved)
        | .panicked => none) dispatched hconv
  refine ⟨ls, by rw [Option.some_bind, hls], by rw [hlslen, hdlen, hlen], ?_⟩
  intro lw hlw
  obtain ⟨fi, _, hfi⟩ := hlsmem lw hlw
  revert hfi
  cases hff : Layer.from_file fi.1 fi.2 dimensions false with
  | panicked => intro hfi; cases hfi
  | ok l saved =>
    intro hfi
    have hsv : saved = false := from_file_saved fi.1 fi.2 dimensions false l saved hff
    simp only [Option.some.injEq] at hfi
    rw [← hfi, hsv]

/-- Witness for the directory-create-failure theorem: one file `a.png`,
arrival order `[0]`, directory creation failing. -/
theorem claim7_dir_create_failure_witness :
    init_layers [(pathAPng, imgA)] ⟨1, 1⟩ true false [0] =
      init_layers_parallel [(pathAPng, imgA)] ⟨1, 1⟩ false [0] ∧
    ∃ ls, init_layers [(pathAPng, imgA)] ⟨1, 1⟩ true false [0] = some ls ∧
      ls.length = [(pathAPng, imgA)].length ∧ ∀ lw ∈ ls, lw.2 = false :=
  claim7_dir_create_failure [(pathAPng, imgA)] ⟨1, 1⟩ [0]
    (List.cons_ne_nil _ _)
    (by
      intro i hi
      rw [List.mem_singleton] at hi
      subst hi
      decide)
    rfl
    (by
      intro f hf
      rw [List.mem_singleton] at hf
      subst hf
      rfl)

end NsdGen
